import Mathlib

/-!
Verification of the Docker image decomposition and incremental-scan
orchestration subsystem of ggshield (ggshield/secret/docker.py).

The Python module is shallowly embedded here:
pure string computations (the regular expressions LAYER_TO_SCAN_PATTERN and
TAG_PATTERN) become functions on lists of characters; JSON values become an
inductive type; the tar archive becomes a list of named members whose byte
content is represented by its JSON parse result (for metadata files) or its
entry list (for nested layer archives); Python exceptions become an error
type threaded through Except.  Stateful code (the layer cache, the lazy
content cache of a scannable, the scan loop) is explicit state passing.
-/

/-! ## Word scanning: LAYER_TO_SCAN_PATTERN = re.compile(r"\b(copy|add)\b", re.IGNORECASE)

The regex engine scans positions left to right; a position matches when the
previous character is not a word character (the leading word boundary), the
text at the position case-insensitively equals the word, and the following
character, if any, is not a word character (the trailing boundary).  Word
characters are modelled as ASCII alphanumerics and the underscore. -/

def isWordChar (c : Char) : Bool :=
  c.isAlphanum || c == '_'

/-- Trailing word boundary: the remainder of the text is empty or starts with
a non-word character. -/
def afterBoundary (s : List Char) : Bool :=
  match s with
  | [] => true
  | c :: _ => !isWordChar c

/-- The lowered text at the current position starts with the word and a
trailing boundary follows it. -/
def wordHere (s w : List Char) : Bool :=
  ((s.take w.length).map Char.toLower == w) && afterBoundary (s.drop w.length)

/-- Scan for a whole-word, case-insensitive occurrence of `w`.  The flag
`prev` records whether the character just before the current position is a
word character (false at the start of the text). -/
def searchWord (w : List Char) (prev : Bool) : List Char → Bool
  | [] => false
  | c :: rest => (!prev && wordHere (c :: rest) w) || searchWord w (isWordChar c) rest

def copyWord : List Char := ['c', 'o', 'p', 'y']

def addWord : List Char := ['a', 'd', 'd']

/-- LAYER_TO_SCAN_PATTERN.search(s) is not None.  The alternation
(copy|add) succeeds at a position iff either word matches there, so the
search succeeds iff either word occurs somewhere. -/
def layerToScanSearch (s : List Char) : Bool :=
  searchWord copyWord false s || searchWord addWord false s

/-! Specification-side reading of "the command text contains the word copy or
add, matched as a whole word, case-insensitively": there is a decomposition
pre ++ mid ++ post where mid lowers to the word and both boundaries hold. -/

/-- Leading word boundary for an occurrence after the prefix `pre`, scanning
with incoming flag `prev`: if the prefix is empty the flag must be false
(nothing before the occurrence, or a non-word character), otherwise the last
character of the prefix must not be a word character. -/
def BoundaryBefore (prev : Bool) (pre : List Char) : Prop :=
  (pre = [] → prev = false) ∧ (∀ c, pre.getLast? = some c → isWordChar c = false)

/-- Trailing word boundary for an occurrence followed by `post`. -/
def BoundaryAfter (post : List Char) : Prop :=
  ∀ c, post.head? = some c → isWordChar c = false

/-- The word `w` occurs in `s` as a whole word, case-insensitively. -/
def WordOccurs (w s : List Char) : Prop :=
  ∃ pre mid post, s = pre ++ mid ++ post ∧ mid.map Char.toLower = w ∧
    BoundaryBefore false pre ∧ BoundaryAfter post

/-! ## LayerInfo -/

structure LayerInfo where
  filename : String
  command : String
  diff_id : String
deriving DecidableEq

/-- LayerInfo.should_scan: a layer with no command must be scanned; otherwise
the layer is scanned iff LAYER_TO_SCAN_PATTERN matches the command. -/
def LayerInfo.should_scan (l : LayerInfo) : Bool :=
  if l.command = "" then true
  else layerToScanSearch l.command.data

/-! ## JSON values

json.load output is modelled by this inductive type.  A member's byte content
is represented directly by its parse result (`none` when json.load would
raise a JSONDecodeError); no textual JSON parser is re-implemented since no
claim is about JSON syntax. -/

inductive Json where
  | null : Json
  | bool : Bool → Json
  | num : Int → Json
  | str : String → Json
  | arr : List Json → Json
  | obj : List (String × Json) → Json

/-- Python truthiness of a JSON-decoded value (None, False, 0, "", [] and {}
are falsy). -/
def Json.truthy : Json → Bool
  | .null => false
  | .bool b => b
  | .num n => n != 0
  | .str s => s ≠ ""
  | .arr xs => !xs.isEmpty
  | .obj kvs => !kvs.isEmpty

/-- Key lookup in a decoded JSON object (dict keys are unique, so first
match is fine). -/
def lookupKey : List (String × Json) → String → Option Json
  | [], _ => none
  | (k, v) :: rest, key => if k = key then some v else lookupKey rest key

/-! ## Python-level errors

The error raised by the embedded code.  `invalidDockerArchive` is the
module's own InvalidDockerArchiveException; the others are builtin Python
exceptions that escape undeclared. -/

inductive PyError where
  | keyError : String → PyError
  | indexError : PyError
  | typeError : PyError
  | attributeError : PyError
  | jsonDecode : PyError
  | invalidDockerArchive : String → PyError
deriving DecidableEq

/-! ## The tar archive model

A top-level archive is a list of members.  For a member that is a metadata
file, `json?` is its parse result; for a member that is a nested layer
archive, `files` lists the entries of that nested tar. -/

structure FileEntry where
  path : String
  isFile : Bool
  size : Nat
deriving DecidableEq

structure TarMember where
  name : String
  isFile : Bool
  json? : Option Json
  files : List FileEntry

def TarArchive := List TarMember

/-- tarfile.TarFile.getmember resolves a name to the lastmost member with
that name and raises KeyError when no member has the name; `none` here
stands for the KeyError case. -/
def findMember (ms : TarArchive) (nm : String) : Option TarMember :=
  (List.reverse ms).find? (fun m => m.name = nm)

/-- tarfile.TarFile.extractfile called with a name: KeyError when the name is
absent; None (here `.ok none`) when the member is not a regular file or
link; otherwise a reader over the member. -/
def extractfileByName (ms : TarArchive) (nm : String) : Except PyError (Option TarMember) :=
  match findMember ms nm with
  | none => .error (.keyError nm)
  | some m => .ok (if m.isFile then some m else none)

/-- Indexing `[0]` on a decoded JSON value, as Python does on the result of
json.load: list indexing (IndexError when empty), string indexing (a
one-character string), KeyError for a dict, TypeError otherwise. -/
def jsonIndexZero : Json → Except PyError Json
  | .arr (x :: _) => .ok x
  | .arr [] => .error .indexError
  | .str s =>
    match s.data with
    | [] => .error .indexError
    | c :: _ => .ok (.str (String.mk [c]))
  | .obj _ => .error (.keyError "0")
  | _ => .error .typeError

/-- Subscripting a decoded JSON value with a string key: dict lookup
(KeyError when missing), TypeError on anything that is not a dict. -/
def jsonGetKey (j : Json) (k : String) : Except PyError Json :=
  match j with
  | .obj kvs =>
    match lookupKey kvs k with
    | some v => .ok v
    | none => .error (.keyError k)
  | _ => .error .typeError

/-- The value must be a JSON array (iterating anything else is modelled as a
TypeError). -/
def asArr (j : Json) : Except PyError (List Json) :=
  match j with
  | .arr xs => .ok xs
  | _ => .error .typeError

/-- All elements must be JSON strings.  The source stores whatever values the
lists hold and would only fail later when a non-string is used as a tar
member name or scanned; since the model's LayerInfo fields are strings, a
non-string element is rejected here instead.  No claim involves non-string
layer filenames or diff_ids. -/
def asStringList : List Json → Except PyError (List String)
  | [] => .ok []
  | .str s :: t =>
    match asStringList t with
    | .ok r => .ok (s :: r)
    | .error e => .error e
  | _ :: _ => .error .typeError

/-- `not x.get("empty_layer")` for a history entry: entries must be dicts
(`.get` on anything else raises AttributeError); a missing key defaults to
None, and the value's truthiness is negated. -/
def histNotEmpty (h : Json) : Except PyError Bool :=
  match h with
  | .obj kvs => .ok (!(Json.truthy ((lookupKey kvs "empty_layer").getD .null)))
  | _ => .error .attributeError

/-- The comprehension `[x for x in history if not x.get("empty_layer")]`. -/
def filterNonEmptyHist : List Json → Except PyError (List Json)
  | [] => .ok []
  | h :: t =>
    match histNotEmpty h with
    | .error e => .error e
    | .ok keep =>
      match filterNonEmptyHist t with
      | .error e => .error e
      | .ok rest => .ok (if keep then h :: rest else rest)

/-- `history.get("created_by", "")`.  A present non-string value would be
stored by the source and make should_scan's regex search raise a TypeError
while the layer_infos comprehension is filtered, still during construction;
the model raises the TypeError at extraction time. -/
def histCommand (h : Json) : Except PyError String :=
  match h with
  | .obj kvs =>
    match lookupKey kvs "created_by" with
    | none => .ok ""
    | some (.str s) => .ok s
    | some _ => .error .typeError
  | _ => .error .attributeError

/-- The comprehension over zip(layer_filenames, non_empty_history_entries,
diff_ids): Python's zip silently truncates to the shortest input. -/
def zip3Infos : List String → List Json → List String → Except PyError (List LayerInfo)
  | f :: fs, h :: hs, d :: ds =>
    match histCommand h with
    | .error e => .error e
    | .ok c =>
      match zip3Infos fs hs ds with
      | .error e => .error e
      | .ok rest => .ok (⟨f, c, d⟩ :: rest)
  | _, _, _ => .ok []

/-! ## DockerImage construction -/

/-- DockerImage._load_manifest: read "manifest.json" and take element 0.
Note the tarfile semantics: an absent member makes extractfile raise
KeyError, so the `is None` check (and its "No manifest file found." error)
only fires for a member that exists but is not a regular file. -/
def load_manifest (ms : TarArchive) : Except PyError Json :=
  match extractfileByName ms "manifest.json" with
  | .error e => .error e
  | .ok none => .error (.invalidDockerArchive "No manifest file found.")
  | .ok (some m) =>
    match m.json? with
    | none => .error .jsonDecode
    | some j => jsonIndexZero j

/-- DockerImage._load_image: follow manifest["Config"] (only a KeyError is
converted to InvalidDockerArchiveException) and parse the config file.
getmember raises KeyError for an absent name, so the source's
`config_file_info is None` check ("No config file found.") is unreachable;
the `extractfile(config_file_info) is None` check fires for a member that is
not a regular file. -/
def load_image (ms : TarArchive) (manifest : Json) : Except PyError Json :=
  match manifest with
  | .obj kvs =>
    match lookupKey kvs "Config" with
    | none => .error (.invalidDockerArchive "No Config key in manifest.")
    | some pathJ =>
      match pathJ with
      | .str path =>
        match findMember ms path with
        | none => .error (.keyError path)
        | some info =>
          if info.isFile then
            match info.json? with
            | none => .error .jsonDecode
            | some j => .ok j
          else .error (.invalidDockerArchive "Config file could not be extracted.")
      | _ => .error .typeError
  | _ => .error .typeError

/-- DockerImage._load_layer_infos: read manifest["Layers"], the non-empty
history entries and image["rootfs"]["diff_ids"], zip them positionally
(truncating to the shortest), and keep only the scan-worthy triples. -/
def load_layer_infos (manifest image : Json) : Except PyError (List LayerInfo) :=
  match jsonGetKey manifest "Layers" with
  | .error e => .error e
  | .ok layersJ =>
  match asArr layersJ with
  | .error e => .error e
  | .ok layersArr =>
  match asStringList layersArr with
  | .error e => .error e
  | .ok layer_filenames =>
  match jsonGetKey image "history" with
  | .error e => .error e
  | .ok histJ =>
  match asArr histJ with
  | .error e => .error e
  | .ok histArr =>
  match filterNonEmptyHist histArr with
  | .error e => .error e
  | .ok nonEmpty =>
  match jsonGetKey image "rootfs" with
  | .error e => .error e
  | .ok rootfsJ =>
  match jsonGetKey rootfsJ "diff_ids" with
  | .error e => .error e
  | .ok diffJ =>
  match asArr diffJ with
  | .error e => .error e
  | .ok diffArr =>
  match asStringList diffArr with
  | .error e => .error e
  | .ok diff_ids =>
  match zip3Infos layer_filenames nonEmpty diff_ids with
  | .error e => .error e
  | .ok layer_infos => .ok (layer_infos.filter (fun l => l.should_scan))

structure DockerImage where
  manifest : Json
  image : Json
  layer_infos : List LayerInfo

/-- DockerImage.__init__ (the config_scannable, a pure json.dumps of the
image JSON, cannot fail and is not involved in any claim, so it is not
carried in the structure). -/
def DockerImage.init (ms : TarArchive) : Except PyError DockerImage :=
  match load_manifest ms with
  | .error e => .error e
  | .ok manifest =>
    match load_image ms manifest with
    | .error e => .error e
    | .ok image =>
      match load_layer_infos manifest image with
      | .error e => .error e
      | .ok infos => .ok ⟨manifest, image, infos⟩

/-- The public catalog (self.layer_infos) of a constructed image, or the
construction error. -/
def initLayerInfos (ms : TarArchive) : Except PyError (List LayerInfo) :=
  Except.map (fun i => i.layer_infos) (DockerImage.init ms)

/-- Whether a construction outcome is the module's own
InvalidDockerArchiveException. -/
def isInvalidArchiveErr : Except PyError (List LayerInfo) → Bool
  | .error (.invalidDockerArchive _) => true
  | _ => false

/-! ## Concrete archives for reasoning

A history entry of the image config, at the model level, and helpers that
build a well-formed archive from given layer filenames, history entries and
diff_ids.  These are inputs fed to the embedded code, not a re-statement of
it. -/

structure HistEntry where
  createdBy : Option String
  emptyLayer : Bool
deriving DecidableEq

def histJson (h : HistEntry) : Json :=
  .obj ((match h.createdBy with
         | some c => [("created_by", Json.str c)]
         | none => []) ++
        (if h.emptyLayer then [("empty_layer", Json.bool true)] else []))

def configJson (hist : List HistEntry) (ds : List String) : Json :=
  .obj [("history", Json.arr (hist.map histJson)),
        ("rootfs", Json.obj [("diff_ids", Json.arr (ds.map Json.str))])]

def manifestJson (fns : List String) : Json :=
  .arr [Json.obj [("Config", Json.str "config.json"),
                  ("Layers", Json.arr (fns.map Json.str))]]

def mkConfigArchive (fns : List String) (hist : List HistEntry) (ds : List String) : TarArchive :=
  [⟨"manifest.json", true, some (manifestJson fns), []⟩,
   ⟨"config.json", true, some (configJson hist ds), []⟩]

/-- The zip of the three sequences at the model level: one LayerInfo per
aligned triple, truncating to the shortest sequence, the command defaulting
to "" when the history entry has no created_by. -/
def mkLayerInfos : List String → List HistEntry → List String → List LayerInfo
  | f :: fs, h :: hs, d :: ds => ⟨f, h.createdBy.getD "", d⟩ :: mkLayerInfos fs hs ds
  | _, _, _ => []

/-! ## The layer scan loop and the orchestrator -/

/-- DockerImage._get_layer_scannables for one layer: open the nested layer
archive (extractfile raises KeyError for an absent member; a member that is
not a regular file yields fileobj None, which would send TarFile to the
filesystem — modelled as a TypeError) and keep the regular, non-empty
entries whose path passes the path policy.  `validate` stands for
_validate_filepath, whose is_path_binary half lives outside this module; the
claims hold for every such predicate. -/
def get_layer_files (ms : TarArchive) (validate : String → Bool) (li : LayerInfo) :
    Except PyError (List FileEntry) :=
  match extractfileByName ms li.filename with
  | .error e => .error e
  | .ok none => .error .typeError
  | .ok (some m) => .ok (m.files.filter (fun f => f.isFile && f.size != 0 && validate f.path))

/-- What happened to one layer during the loop of docker_scan_archive. -/
inductive LayerEvent where
  | emptySkip : String → LayerEvent
  | cacheHit : String → LayerEvent
  | scanned : String → Bool → LayerEvent
deriving DecidableEq

structure LoopOut where
  err : Option PyError
  cache : List String
  events : List LayerEvent
  opened : List String
deriving DecidableEq

/-- The per-layer loop of docker_scan_archive (source lines 354-369): open
the layer, skip it when it yields zero units, skip it on a cache hit,
otherwise submit its batch to the engine (`breaks id` is whether the batch
reports policy breaks for the layer with content id `id`) and record the id as
clean only when the batch is clean.  An exception while opening a layer
aborts the loop. -/
def layersLoop (ms : TarArchive) (validate breaks : String → Bool) (cache : List String) :
    List LayerInfo → LoopOut
  | [] => ⟨none, cache, [], []⟩
  | info :: rest =>
    match get_layer_files ms validate info with
    | .error e => ⟨some e, cache, [], []⟩
    | .ok units =>
      if units.length = 0 then
        match layersLoop ms validate breaks cache rest with
        | ⟨er, c, evs, op⟩ => ⟨er, c, .emptySkip info.diff_id :: evs, info.filename :: op⟩
      else if cache.contains info.diff_id then
        match layersLoop ms validate breaks cache rest with
        | ⟨er, c, evs, op⟩ => ⟨er, c, .cacheHit info.diff_id :: evs, info.filename :: op⟩
      else
        match layersLoop ms validate breaks
            (if breaks info.diff_id then cache else cache ++ [info.diff_id]) rest with
        | ⟨er, c, evs, op⟩ =>
          ⟨er, c, .scanned info.diff_id (!breaks info.diff_id) :: evs, info.filename :: op⟩

/-- The ids of the layers that were submitted to the engine in this run and
whose batch came back clean, in order. -/
def cleanIds : List LayerEvent → List String
  | [] => []
  | .scanned id true :: t => id :: cleanIds t
  | _ :: t => cleanIds t

/-- The ids of all layers submitted to the engine in this run (clean or
not); their results are what the loop appends to the collection. -/
def scannedIds : List LayerEvent → List String
  | [] => []
  | .scanned id _ :: t => id :: scannedIds t
  | _ :: t => scannedIds t

/-- The open TarFile handle: the path it was opened from, the address shown
by the default object repr, and its members. -/
structure TarFileHandle where
  path : String
  addr : String
  members : TarArchive

/-- str() of a TarFile object: tarfile.TarFile defines no __str__, so this
is the default object repr, not the path the archive was opened from. -/
def strOfTarFile (tf : TarFileHandle) : String :=
  "<tarfile.TarFile object at " ++ tf.addr ++ ">"

structure ScanCollection where
  id : String
  type : String
  results : List String
deriving DecidableEq

deriving instance DecidableEq for Except

structure ScanOutcome where
  result : Except PyError ScanCollection
  cacheAfter : List String
  events : List LayerEvent
  opened : List String
deriving DecidableEq

/-- docker_scan_archive: build the DockerImage (any failure aborts with no
layer opened), scan the config scannable (its engine results are the opaque
`configRes`), run the layer loop, and tag the aggregated collection with
str(archive) — the TarFile object, not archive_path.  The outcome carries
the final cache contents and the trace of opened layers and layer events. -/
def docker_scan_archive (tf : TarFileHandle) (validate breaks : String → Bool)
    (configRes : List String) (cache0 : List String) : ScanOutcome :=
  match DockerImage.init tf.members with
  | .error e => ⟨.error e, cache0, [], []⟩
  | .ok img =>
    match layersLoop tf.members validate breaks cache0 img.layer_infos with
    | ⟨some e, c, evs, op⟩ => ⟨.error e, c, evs, op⟩
    | ⟨none, c, evs, op⟩ =>
      ⟨.ok ⟨strOfTarFile tf, "scan_docker_archive", configRes ++ scannedIds evs⟩, c, evs, op⟩

/-- The collection id of a successful outcome. -/
def outcomeId (o : ScanOutcome) : Option String :=
  match o.result with
  | .ok c => some c.id
  | .error _ => none

/-- A path policy accepting everything (used to instantiate the parametric
`validate`). -/
def allPathsOk : String → Bool := fun _ => true

/-- An engine reporting no policy breaks for any layer. -/
def noBreaks : String → Bool := fun _ => false

/-! ## DockerContentScannable -/

/-- The mutable state of a DockerContentScannable: the entry's bytes (tar
records the byte size of the entry and extractfile yields exactly that many
bytes, so _tar_info.size is bytes.length) and the cached decoded content.
The decoder (Scannable._decode_bytes, outside this module) is a parameter;
a text decode yields at most one character per input byte. -/
structure DCScannable where
  bytes : List Nat
  contentCache : Option (List Char)

/-- Python truthiness of self._content: set and non-empty. -/
def cacheTruthy (s : DCScannable) : Bool :=
  match s.contentCache with
  | some (_ :: _) => true
  | _ => false

/-- DockerContentScannable.is_longer_than: answer from the cache when it is
truthy; answer False outright when the recorded byte size is below the
probe; otherwise decide from the decoded text the way
Scannable._is_file_longer_than does — modelled from the spec: it decodes
only as much as needed, and stores the decode in self._content exactly when
it reached the end of the text (so the cache, when set, is the full decode). -/
def isLongerThan (decode : List Nat → List Char) (s : DCScannable) (size : Nat) :
    Bool × DCScannable :=
  if cacheTruthy s then
    (decide ((s.contentCache.getD []).length > size), s)
  else if s.bytes.length < size then
    (false, s)
  else if decide ((decode s.bytes).length > size) then
    (true, ⟨s.bytes, none⟩)
  else
    (false, ⟨s.bytes, some (decode s.bytes)⟩)

/-- DockerContentScannable.content: decode and cache on first use. -/
def scannableContent (decode : List Nat → List Char) (s : DCScannable) :
    List Char × DCScannable :=
  match s.contentCache with
  | some c => (c, s)
  | none => (decode s.bytes, ⟨s.bytes, some (decode s.bytes)⟩)

/-- The reachable states of a scannable: the cache is either unset or holds
the full decode of the entry's bytes. -/
def CacheCoherent (decode : List Nat → List Char) (s : DCScannable) : Prop :=
  s.contentCache = none ∨ s.contentCache = some (decode s.bytes)

/-- A concrete decoder satisfying the one-character-per-byte bound, used to
instantiate the parametric statements. -/
def decodeOneCharPerByte : List Nat → List Char :=
  fun bs => bs.map (fun _ => 'a')

/-! ## docker_save_to_tmp / docker_pull_image

The docker binary is an opaque external tool; its behaviour is an oracle:
the k-th element of `saves` (resp. `pulls`) is the outcome docker would
produce for the k-th save (resp. pull) invocation.  The function mirrors
the control flow of docker_save_to_tmp: a CalledProcessError whose stderr
carries the not-found signature triggers docker_pull_image and then a
recursive call of docker_save_to_tmp; any other CalledProcessError and any
TimeoutExpired raise; a failed pull raises UsageError.  An empty oracle
(`exhausted`) models the window ending with the recursion still running. -/

inductive SaveOutcome where
  | ok : SaveOutcome
  | notFound : SaveOutcome
  | otherErr : SaveOutcome
  | timedOut : SaveOutcome
deriving DecidableEq

inductive PullOutcome where
  | ok : PullOutcome
  | failed : PullOutcome
  | timedOut : PullOutcome
deriving DecidableEq

inductive SaveResult where
  | success : SaveResult
  | usageErr : SaveResult
  | unexpectedErr : SaveResult
  | exhausted : SaveResult
deriving DecidableEq

structure SaveRun where
  result : SaveResult
  saveCalls : Nat
  pullCalls : Nat
deriving DecidableEq

def docker_save_to_tmp : List SaveOutcome → List PullOutcome → SaveRun
  | [], _ => ⟨.exhausted, 0, 0⟩
  | .ok :: _, _ => ⟨.success, 1, 0⟩
  | .otherErr :: _, _ => ⟨.unexpectedErr, 1, 0⟩
  | .timedOut :: _, _ => ⟨.unexpectedErr, 1, 0⟩
  | .notFound :: saves, pulls =>
    match pulls with
    | [] => ⟨.exhausted, 1, 0⟩
    | .failed :: _ => ⟨.usageErr, 1, 1⟩
    | .timedOut :: _ => ⟨.unexpectedErr, 1, 1⟩
    | .ok :: pulls2 =>
      match docker_save_to_tmp saves pulls2 with
      | ⟨r, s, p⟩ => ⟨r, s + 1, p + 1⟩

/-- The outcome of the attempt that ends the recursion. -/
def saveTerminal : SaveOutcome → SaveResult
  | .ok => .success
  | .otherErr => .unexpectedErr
  | .timedOut => .unexpectedErr
  | .notFound => .exhausted

/-! ## The layer id cache (_get_layer_id_cache)

IDCache (ggshield/scan/id_cache.py) is outside this module.  Modelled from
the spec: a durable set of content identifiers stored at a filesystem path;
the universe of stores is a map from path to recorded ids, and a cache view
reads and writes only its own path. -/

abbrev CacheStore := String → List String

def emptyCacheStore : CacheStore := fun _ => []

def cacheAdd (st : CacheStore) (path id : String) : CacheStore :=
  fun p => if p = path then id :: st p else st p

def cacheContains (st : CacheStore) (path id : String) : Bool :=
  (st path).contains id

/-- _get_layer_id_cache: the cache artifact for an engine version lives at
cache_dir/docker/<version>.json. -/
def layerCachePath (cacheDir version : String) : String :=
  cacheDir ++ "/docker/" ++ version ++ ".json"

/-! ## TAG_PATTERN = re.compile(r":[a-zA-Z0-9_][-.a-zA-Z0-9_]{0,127}$") -/

def isTagFirstChar (c : Char) : Bool :=
  c.isAlphanum || c == '_'

def isTagChar (c : Char) : Bool :=
  isTagFirstChar c || c == '-' || c == '.'

/-- Whether the text matches the tag body alone: one leading tag character,
then up to 127 further tag characters, consuming everything given. -/
def tagBodyMatch (t : List Char) : Bool :=
  match t with
  | [] => false
  | c :: rest => isTagFirstChar c && decide (rest.length ≤ 127) && rest.all isTagChar

/-- Whether the text from a ':' matches the tag body followed by the $
anchor.  Without re.MULTILINE, Python's $ matches at the end of the string
and also just before a newline that ends the string, so the tag body has to
consume everything, or everything except a single trailing newline (a
newline is not a tag character, so these are the only two ways to match). -/
def tagMatchFrom (t : List Char) : Bool :=
  tagBodyMatch t ||
    (match t.getLast? with
     | some c => c == '\n' && tagBodyMatch t.dropLast
     | none => false)

/-- TAG_PATTERN.search(s) is not None: some position holds a ':' whose
remainder matches the tag body up to the $ anchor. -/
def hasTagSuffix (s : List Char) : Bool :=
  (List.range s.length).any (fun i => s.getD i ' ' == ':' && tagMatchFrom (s.drop (i + 1)))

/-- The strict variant ignoring the trailing-newline case of $: some ':'
whose remainder is exactly a tag body reaching the end of the string.  This
is the check the claim describes ("ends in a colon-prefixed tag"). -/
def hasStrictTagSuffix (s : List Char) : Bool :=
  (List.range s.length).any (fun i => s.getD i ' ' == ':' && tagBodyMatch (s.drop (i + 1)))

/-- The image-name normalisation at the head of docker_save_to_tmp. -/
def dockerSaveImageName (name : String) : String :=
  if hasTagSuffix name.data then name else name ++ ":latest"

/-- Specification-side reading of the tag body: non-empty, at most 128
characters, leading character alphanumeric or underscore, the rest also
allowing '-' and '.'. -/
def TagShaped (t : List Char) : Prop :=
  match t with
  | [] => False
  | c :: rest => isTagFirstChar c = true ∧ rest.length ≤ 127 ∧ ∀ x ∈ rest, isTagChar x = true

/-- The name ends in a colon-prefixed tag (the claim's reading). -/
def EndsWithTag (s : List Char) : Prop :=
  ∃ pre t, s = pre ++ ':' :: t ∧ TagShaped t

/-- The name ends in a colon-prefixed tag, optionally followed by one
trailing newline — what TAG_PATTERN actually accepts. -/
def EndsWithTagNl (s : List Char) : Prop :=
  EndsWithTag s ∨ ∃ pre t, s = pre ++ ':' :: (t ++ ['\n']) ∧ TagShaped t

/-! ## Lemmas: the word search agrees with the occurrence predicate -/

theorem afterBoundary_iff (l : List Char) : afterBoundary l = true ↔ BoundaryAfter l := by
  cases l with
  | nil => simp [afterBoundary, BoundaryAfter]
  | cons c t => simp [afterBoundary, BoundaryAfter, Bool.not_eq_true']

theorem wordHere_iff (s w : List Char) :
    wordHere s w = true ↔
      ∃ mid post, s = mid ++ post ∧ mid.map Char.toLower = w ∧ BoundaryAfter post := by
  constructor
  · intro h
    rw [wordHere, Bool.and_eq_true] at h
    refine ⟨s.take w.length, s.drop w.length, (List.take_append_drop _ _).symm,
      beq_iff_eq.mp h.1, (afterBoundary_iff _).1 h.2⟩
  · rintro ⟨mid, post, rfl, hmap, hpost⟩
    have hlen : w.length = mid.length := by rw [← hmap]; simp
    rw [wordHere, hlen, List.take_left, List.drop_left, Bool.and_eq_true]
    exact ⟨beq_iff_eq.mpr hmap, (afterBoundary_iff _).2 hpost⟩

theorem searchWord_iff (w : List Char) (hw : w ≠ []) :
    ∀ (s : List Char) (prev : Bool),
      searchWord w prev s = true ↔
        ∃ pre mid post, s = pre ++ mid ++ post ∧ mid.map Char.toLower = w ∧
          BoundaryBefore prev pre ∧ BoundaryAfter post := by
  intro s
  induction s with
  | nil =>
    intro prev
    constructor
    · intro h; exact absurd h (by simp [searchWord])
    · rintro ⟨pre, mid, post, heq, hmap, -, -⟩
      obtain ⟨h2, -⟩ := List.append_eq_nil.mp heq.symm
      obtain ⟨-, hmid⟩ := List.append_eq_nil.mp h2
      subst hmid
      simp at hmap
      exact absurd hmap hw
  | cons c rest ih =>
    intro prev
    simp only [searchWord, Bool.or_eq_true, Bool.and_eq_true]
    constructor
    · intro h
      rcases h with ⟨hp, hwh⟩ | h
      · have hp' : prev = false := by simpa [Bool.not_eq_true'] using hp
        obtain ⟨mid, post, heq, hmap, hpost⟩ := (wordHere_iff _ _).1 hwh
        exact ⟨[], mid, post, by simpa using heq, hmap,
          ⟨fun _ => hp', fun x hx => by simp at hx⟩, hpost⟩
      · obtain ⟨pre, mid, post, heq, hmap, hb, ha⟩ := (ih (isWordChar c)).1 h
        refine ⟨c :: pre, mid, post, by simp [heq], hmap, ?_, ha⟩
        cases pre with
        | nil =>
          refine ⟨fun hcon => absurd hcon (by simp), fun x hx => ?_⟩
          simp at hx
          subst hx
          exact hb.1 rfl
        | cons p ps =>
          refine ⟨fun hcon => absurd hcon (by simp), fun x hx => ?_⟩
          rw [List.getLast?_cons_cons] at hx
          exact hb.2 x hx
    · rintro ⟨pre, mid, post, heq, hmap, hb, ha⟩
      cases pre with
      | nil =>
        left
        refine ⟨by simp [hb.1 rfl], ?_⟩
        exact (wordHere_iff _ _).2 ⟨mid, post, by simpa using heq, hmap, ha⟩
      | cons p ps =>
        right
        simp only [List.cons_append] at heq
        injection heq with hc hrest
        rw [hc]
        apply (ih (isWordChar p)).2
        refine ⟨ps, mid, post, hrest, hmap, ?_, ha⟩
        cases ps with
        | nil =>
          have hp := hb.2 p (by simp)
          exact ⟨fun _ => hp, fun x hx => by simp at hx⟩
        | cons q qs =>
          refine ⟨fun hcon => absurd hcon (by simp), fun x hx => ?_⟩
          exact hb.2 x (by rw [List.getLast?_cons_cons]; exact hx)

/-- C2: should_scan is true iff the build command is the empty string or the
command contains copy or add as a whole word, case-insensitively; in
particular "RUN apt-get update" is not scanned and "COPY . /app" is, in any
case. -/
theorem c2_should_scan_iff :
    (∀ l : LayerInfo, l.should_scan = true ↔
      (l.command = "" ∨ WordOccurs copyWord l.command.data ∨ WordOccurs addWord l.command.data))
    ∧ (LayerInfo.mk "f" "RUN apt-get update" "d").should_scan = false
    ∧ (LayerInfo.mk "f" "COPY . /app" "d").should_scan = true
    ∧ (LayerInfo.mk "f" "copy . /App" "d").should_scan = true := by
  refine ⟨?_, by decide, by decide, by decide⟩
  intro l
  by_cases hc : l.command = ""
  · simp [LayerInfo.should_scan, hc]
  · rw [LayerInfo.should_scan, if_neg hc, layerToScanSearch, Bool.or_eq_true]
    rw [searchWord_iff copyWord (by decide) l.command.data false,
      searchWord_iff addWord (by decide) l.command.data false]
    constructor
    · rintro (h | h)
      · exact Or.inr (Or.inl h)
      · exact Or.inr (Or.inr h)
    · rintro (h | h | h)
      · exact absurd h hc
      · exact Or.inl h
      · exact Or.inr h

/-! ## Lemmas: TAG_PATTERN search agrees with the suffix-tag predicate -/

theorem getD_append_cons (pre : List Char) (c : Char) (t : List Char) (d : Char) :
    (pre ++ c :: t).getD pre.length d = c := by
  induction pre with
  | nil => rfl
  | cons p ps ih => simpa [List.getD] using ih

theorem drop_append_cons (pre : List Char) (c : Char) (t : List Char) :
    (pre ++ c :: t).drop (pre.length + 1) = t := by
  induction pre with
  | nil => rfl
  | cons p ps ih => simp [ih]

theorem splitAt_char (s : List Char) (i : Nat) (hi : i < s.length) (c : Char)
    (hc : s.getD i ' ' = c) : s = s.take i ++ c :: s.drop (i + 1) := by
  induction s generalizing i with
  | nil => simp at hi
  | cons a t ih =>
    cases i with
    | zero =>
      simp [List.getD] at hc
      simp [hc]
    | succ j =>
      simp only [List.length_cons, Nat.succ_lt_succ_iff] at hi
      have hstep := ih j hi (by simpa [List.getD] using hc)
      rw [List.take_succ_cons, List.drop_succ_cons]
      exact congrArg (a :: ·) hstep

theorem tagBodyMatch_iff (t : List Char) : tagBodyMatch t = true ↔ TagShaped t := by
  cases t with
  | nil => simp [tagBodyMatch, TagShaped]
  | cons c rest =>
    simp [tagBodyMatch, TagShaped, List.all_eq_true, Bool.and_eq_true, and_assoc]

theorem anyColon_iff (p : List Char → Bool) (s : List Char) :
    ((List.range s.length).any (fun i => s.getD i ' ' == ':' && p (s.drop (i + 1))) = true)
      ↔ ∃ pre rest, s = pre ++ ':' :: rest ∧ p rest = true := by
  rw [List.any_eq_true]
  constructor
  · rintro ⟨i, hi, hp⟩
    rw [List.mem_range] at hi
    rw [Bool.and_eq_true] at hp
    have hc : s.getD i ' ' = ':' := beq_iff_eq.mp hp.1
    exact ⟨s.take i, s.drop (i + 1), splitAt_char s i hi ':' hc, hp.2⟩
  · rintro ⟨pre, rest, rfl, hp⟩
    refine ⟨pre.length, ?_, ?_⟩
    · rw [List.mem_range]
      simp [List.length_append]
    · rw [Bool.and_eq_true]
      refine ⟨beq_iff_eq.mpr (getD_append_cons pre ':' rest ' '), ?_⟩
      rw [drop_append_cons]
      exact hp

theorem tagMatchFrom_iff (t : List Char) :
    tagMatchFrom t = true ↔ (TagShaped t ∨ ∃ u, t = u ++ ['\n'] ∧ TagShaped u) := by
  rcases List.eq_nil_or_concat t with rfl | ⟨u, a, hua⟩
  · constructor
    · intro h
      exact absurd h (by decide)
    · rintro (h | ⟨v, hv, -⟩)
      · exact absurd h (by simp [TagShaped])
      · exact absurd hv.symm (by simp)
  · rw [List.concat_eq_append] at hua
    subst hua
    simp only [tagMatchFrom]
    rw [List.getLast?_concat, List.dropLast_concat]
    constructor
    · intro h
      rw [Bool.or_eq_true] at h
      rcases h with h | h
      · exact Or.inl ((tagBodyMatch_iff _).1 h)
      · rw [Bool.and_eq_true] at h
        have ha : a = '\n' := beq_iff_eq.mp h.1
        subst ha
        exact Or.inr ⟨u, rfl, (tagBodyMatch_iff _).1 h.2⟩
    · intro h
      rw [Bool.or_eq_true]
      rcases h with h | ⟨v, hv, hts⟩
      · exact Or.inl ((tagBodyMatch_iff _).2 h)
      · obtain ⟨huv, hav⟩ := List.append_inj' hv rfl
        have ha : a = '\n' := by simpa using hav
        subst huv
        right
        rw [Bool.and_eq_true]
        exact ⟨beq_iff_eq.mpr ha, (tagBodyMatch_iff _).2 hts⟩

theorem hasTagSuffix_iff (s : List Char) : hasTagSuffix s = true ↔ EndsWithTagNl s := by
  simp only [hasTagSuffix]
  rw [anyColon_iff tagMatchFrom s]
  simp only [EndsWithTagNl, EndsWithTag]
  constructor
  · rintro ⟨pre, rest, rfl, hp⟩
    rcases (tagMatchFrom_iff rest).1 hp with h | ⟨u, rfl, hu⟩
    · exact Or.inl ⟨pre, rest, rfl, h⟩
    · exact Or.inr ⟨pre, u, rfl, hu⟩
  · rintro (⟨pre, t, rfl, ht⟩ | ⟨pre, t, rfl, ht⟩)
    · exact ⟨pre, t, rfl, (tagMatchFrom_iff t).2 (Or.inl ht)⟩
    · exact ⟨pre, t ++ ['\n'], rfl, (tagMatchFrom_iff _).2 (Or.inr ⟨t, rfl, ht⟩)⟩

theorem hasStrictTagSuffix_iff (s : List Char) :
    hasStrictTagSuffix s = true ↔ EndsWithTag s := by
  simp only [hasStrictTagSuffix]
  rw [anyColon_iff tagBodyMatch s]
  simp only [EndsWithTag]
  constructor
  · rintro ⟨pre, rest, rfl, hp⟩
    exact ⟨pre, rest, rfl, (tagBodyMatch_iff _).1 hp⟩
  · rintro ⟨pre, t, rfl, ht⟩
    exact ⟨pre, t, rfl, (tagBodyMatch_iff _).2 ht⟩

/-- C10 counterexample: the name made of "redis:7.2" plus a trailing
newline does not end in a colon-prefixed tag (its last character is a
newline, which is not a tag character), yet docker_save_to_tmp uses it
unchanged instead of appending ":latest": Python's $ also matches just
before a newline that ends the string, so TAG_PATTERN.search finds a
match. -/
theorem c10_counterexample :
    ¬ EndsWithTag "redis:7.2\n".data
    ∧ dockerSaveImageName "redis:7.2\n" = "redis:7.2\n"
    ∧ "redis:7.2\n" ≠ "redis:7.2\n" ++ ":latest" := by
  refine ⟨fun h => absurd ((hasStrictTagSuffix_iff _).2 h) (by decide), by decide, by decide⟩

/-- C10 (amended): ":latest" is appended exactly when the name does not end
in a colon-prefixed tag of 1 to 128 tag characters optionally followed by a
single trailing newline (the trailing-newline case coming from Python's $
anchor); a name already carrying such a suffix is used unchanged. -/
theorem c10_latest_tag (name : String) :
    (EndsWithTagNl name.data → dockerSaveImageName name = name)
    ∧ (¬ EndsWithTagNl name.data → dockerSaveImageName name = name ++ ":latest") := by
  constructor
  · intro h
    rw [dockerSaveImageName, if_pos ((hasTagSuffix_iff _).2 h)]
  · intro h
    rw [dockerSaveImageName, if_neg]
    intro hcon
    exact h ((hasTagSuffix_iff _).1 hcon)

/-- C10 witness: a tagged name and a tagged name with a trailing newline
are left unchanged; an untagged one gets ":latest". -/
theorem c10_witness :
    EndsWithTagNl "redis:7.2".data ∧ dockerSaveImageName "redis:7.2" = "redis:7.2"
    ∧ EndsWithTagNl "ubuntu:22.04\n".data
    ∧ dockerSaveImageName "ubuntu:22.04\n" = "ubuntu:22.04\n"
    ∧ ¬ EndsWithTagNl "redis".data
    ∧ dockerSaveImageName "redis" = "redis" ++ ":latest" := by
  have h1 : EndsWithTagNl "redis:7.2".data := (hasTagSuffix_iff _).1 (by decide)
  have h2 : EndsWithTagNl "ubuntu:22.04\n".data := (hasTagSuffix_iff _).1 (by decide)
  have h3 : ¬ EndsWithTagNl "redis".data := fun h =>
    absurd ((hasTagSuffix_iff _).2 h) (by decide)
  exact ⟨h1, (c10_latest_tag "redis:7.2").1 h1, h2, (c10_latest_tag "ubuntu:22.04\n").1 h2,
    h3, (c10_latest_tag "redis").2 h3⟩

/-! ## Lemmas: catalog construction on well-formed archives -/

theorem histNotEmpty_histJson (h : HistEntry) :
    histNotEmpty (histJson h) = .ok (!h.emptyLayer) := by
  obtain ⟨cb, el⟩ := h
  cases cb <;> cases el <;> rfl

theorem filterNonEmptyHist_map (hs : List HistEntry) :
    filterNonEmptyHist (hs.map histJson) =
      .ok ((hs.filter (fun h => !h.emptyLayer)).map histJson) := by
  induction hs with
  | nil => rfl
  | cons h t ih =>
    simp only [List.map_cons, filterNonEmptyHist, histNotEmpty_histJson, ih, List.filter_cons]
    cases h.emptyLayer <;> simp

theorem histCommand_histJson (h : HistEntry) :
    histCommand (histJson h) = .ok (h.createdBy.getD "") := by
  obtain ⟨cb, el⟩ := h
  cases cb <;> cases el <;> rfl

theorem asStringList_map (xs : List String) :
    asStringList (xs.map Json.str) = .ok xs := by
  induction xs with
  | nil => rfl
  | cons x t ih => simp only [List.map_cons, asStringList, ih]

theorem zip3Infos_map (fns : List String) (hs : List HistEntry) (ds : List String) :
    zip3Infos fns (hs.map histJson) ds = .ok (mkLayerInfos fns hs ds) := by
  induction fns generalizing hs ds with
  | nil => cases hs <;> cases ds <;> rfl
  | cons f ft ih =>
    cases hs with
    | nil => cases ds <;> rfl
    | cons h ht =>
      cases ds with
      | nil => rfl
      | cons d dt =>
        simp only [List.map_cons, zip3Infos, histCommand_histJson, ih, mkLayerInfos]

theorem mkLayerInfos_length (fns : List String) (hs : List HistEntry) (ds : List String) :
    (mkLayerInfos fns hs ds).length = min fns.length (min hs.length ds.length) := by
  induction fns generalizing hs ds with
  | nil => simp [mkLayerInfos]
  | cons f ft ih =>
    cases hs with
    | nil => simp [mkLayerInfos]
    | cons h ht =>
      cases ds with
      | nil => simp [mkLayerInfos]
      | cons d dt =>
        simp only [mkLayerInfos, List.length_cons, ih]
        omega

theorem mkLayerInfos_map_diff (hs : List HistEntry) (fns ds : List String)
    (h1 : fns.length = hs.length) (h2 : ds.length = hs.length) :
    (mkLayerInfos fns hs ds).map (fun l => l.diff_id) = ds := by
  induction hs generalizing fns ds with
  | nil =>
    have e1 : fns = [] := List.length_eq_zero.mp h1
    have e2 : ds = [] := List.length_eq_zero.mp h2
    subst e1; subst e2; rfl
  | cons h ht ih =>
    cases fns with
    | nil => simp at h1
    | cons f ft =>
      cases ds with
      | nil => simp at h2
      | cons d dt =>
        simp only [mkLayerInfos, List.map_cons]
        rw [ih ft dt (by simpa using h1) (by simpa using h2)]

theorem initLayerInfos_mk (fns : List String) (hist : List HistEntry) (ds : List String) :
    initLayerInfos (mkConfigArchive fns hist ds) =
      .ok ((mkLayerInfos fns (hist.filter (fun h => !h.emptyLayer)) ds).filter
        (fun l => l.should_scan)) := by
  have hm : load_manifest (mkConfigArchive fns hist ds) =
      .ok (Json.obj [("Config", Json.str "config.json"),
                     ("Layers", Json.arr (fns.map Json.str))]) := rfl
  have hi : load_image (mkConfigArchive fns hist ds)
      (Json.obj [("Config", Json.str "config.json"),
                 ("Layers", Json.arr (fns.map Json.str))]) = .ok (configJson hist ds) := rfl
  have e1 : jsonGetKey (Json.obj [("Config", Json.str "config.json"),
      ("Layers", Json.arr (fns.map Json.str))]) "Layers" =
      .ok (Json.arr (fns.map Json.str)) := rfl
  have e3 : jsonGetKey (configJson hist ds) "history" =
      .ok (Json.arr (hist.map histJson)) := rfl
  have e5 : jsonGetKey (configJson hist ds) "rootfs" =
      .ok (Json.obj [("diff_ids", Json.arr (ds.map Json.str))]) := rfl
  have e6 : jsonGetKey (Json.obj [("diff_ids", Json.arr (ds.map Json.str))]) "diff_ids" =
      .ok (Json.arr (ds.map Json.str)) := rfl
  have hl : load_layer_infos
      (Json.obj [("Config", Json.str "config.json"),
                 ("Layers", Json.arr (fns.map Json.str))]) (configJson hist ds) =
      .ok ((mkLayerInfos fns (hist.filter (fun h => !h.emptyLayer)) ds).filter
        (fun l => l.should_scan)) := by
    simp only [load_layer_infos, e1, e3, e5, e6, asArr, asStringList_map,
      filterNonEmptyHist_map, zip3Infos_map]
  simp only [initLayerInfos, DockerImage.init, hm, hi, hl, Except.map]

/-- C1 counterexample: an archive whose manifest lists one layer filename,
whose history has two non-empty entries and whose diff_ids has three
entries — the three lengths differ, yet DockerImage construction succeeds
(no InvalidDockerArchiveException) and builds a layer descriptor from the
misaligned data, because zip silently truncates. -/
theorem c1_counterexample :
    initLayerInfos (mkConfigArchive ["l1.tar"]
        [⟨some "COPY a b", false⟩, ⟨some "COPY c d", false⟩]
        ["sha1", "sha2", "sha3"]) = .ok [⟨"l1.tar", "COPY a b", "sha1"⟩]
    ∧ isInvalidArchiveErr (initLayerInfos (mkConfigArchive ["l1.tar"]
        [⟨some "COPY a b", false⟩, ⟨some "COPY c d", false⟩]
        ["sha1", "sha2", "sha3"])) = false :=
  ⟨by decide, by decide⟩

/-- C1 (amended): a length mismatch between the manifest layer list, the
non-empty history entries and diff_ids does not fail DockerImage
construction; the catalog is built from the three sequences zipped and
truncated to the shortest, then filtered to the scan-worthy descriptors. -/
theorem c1_zip_truncation (fns : List String) (hist : List HistEntry) (ds : List String) :
    initLayerInfos (mkConfigArchive fns hist ds) =
      .ok ((mkLayerInfos fns (hist.filter (fun h => !h.emptyLayer)) ds).filter
        (fun l => l.should_scan))
    ∧ (mkLayerInfos fns (hist.filter (fun h => !h.emptyLayer)) ds).length =
        min fns.length (min (hist.filter (fun h => !h.emptyLayer)).length ds.length) :=
  ⟨initLayerInfos_mk fns hist ds, mkLayerInfos_length fns _ ds⟩

/-- C8 counterexample: an aligned one-layer archive whose only command is
"RUN apt-get update" — the public catalog holds 0 descriptors while the
count of non-empty history entries is 1, because the public list keeps only
scan-worthy descriptors. -/
theorem c8_counterexample :
    Except.map List.length (initLayerInfos (mkConfigArchive ["l1.tar"]
        [⟨some "RUN apt-get update", false⟩] ["sha1"])) = .ok 0
    ∧ (([⟨some "RUN apt-get update", false⟩] : List HistEntry).filter
        (fun h => !h.emptyLayer)).length = 1
    ∧ (0 : Nat) ≠ 1 :=
  ⟨by decide, by decide, by decide⟩

/-- C8 (amended): on an aligned archive the zipped (pre-filter) descriptor
list has exactly one descriptor per non-empty history entry, in diff_ids
order; the public catalog is its scan-worthy filter, whose diff_ids form an
order-preserving sublist of diff_ids. -/
theorem c8_aligned_catalog (fns : List String) (hist : List HistEntry) (ds : List String)
    (h1 : fns.length = (hist.filter (fun h => !h.emptyLayer)).length)
    (h2 : ds.length = (hist.filter (fun h => !h.emptyLayer)).length) :
    (mkLayerInfos fns (hist.filter (fun h => !h.emptyLayer)) ds).length =
      (hist.filter (fun h => !h.emptyLayer)).length
    ∧ (mkLayerInfos fns (hist.filter (fun h => !h.emptyLayer)) ds).map
        (fun l => l.diff_id) = ds
    ∧ initLayerInfos (mkConfigArchive fns hist ds) =
        .ok ((mkLayerInfos fns (hist.filter (fun h => !h.emptyLayer)) ds).filter
          (fun l => l.should_scan))
    ∧ List.Sublist (((mkLayerInfos fns (hist.filter (fun h => !h.emptyLayer)) ds).filter
          (fun l => l.should_scan)).map (fun l => l.diff_id)) ds := by
  refine ⟨?_, mkLayerInfos_map_diff _ fns ds h1 h2, initLayerInfos_mk fns hist ds, ?_⟩
  · rw [mkLayerInfos_length]; omega
  · have hsub := List.filter_sublist (p := fun l => l.should_scan)
      (mkLayerInfos fns (hist.filter (fun h => !h.emptyLayer)) ds)
    have hmapped := List.Sublist.map (fun l => l.diff_id) hsub
    rwa [mkLayerInfos_map_diff _ fns ds h1 h2] at hmapped

/-- C8 witness: a one-layer aligned archive with a COPY command. -/
theorem c8_witness :
    (["l1.tar"] : List String).length =
      (([⟨some "COPY a b", false⟩] : List HistEntry).filter (fun h => !h.emptyLayer)).length
    ∧ (["sha1"] : List String).length =
      (([⟨some "COPY a b", false⟩] : List HistEntry).filter (fun h => !h.emptyLayer)).length
    ∧ (mkLayerInfos ["l1.tar"]
        (([⟨some "COPY a b", false⟩] : List HistEntry).filter (fun h => !h.emptyLayer))
        ["sha1"]).map (fun l => l.diff_id) = ["sha1"] := by
  refine ⟨by decide, by decide, ?_⟩
  exact (c8_aligned_catalog ["l1.tar"] [⟨some "COPY a b", false⟩] ["sha1"]
    (by decide) (by decide)).2.1

/-! ## Lemmas: the scan loop's cache discipline -/

theorem layersLoop_cache (ms : TarArchive) (validate breaks : String → Bool) :
    ∀ (infos : List LayerInfo) (cache : List String),
      (layersLoop ms validate breaks cache infos).cache =
        cache ++ cleanIds (layersLoop ms validate breaks cache infos).events := by
  intro infos
  induction infos with
  | nil => intro cache; simp [layersLoop, cleanIds]
  | cons info rest ih =>
    intro cache
    simp only [layersLoop]
    cases hg : get_layer_files ms validate info with
    | error e => simp [cleanIds]
    | ok units =>
      by_cases h0 : units.length = 0
      · rcases hO : layersLoop ms validate breaks cache rest with ⟨er, c, evs, op⟩
        have h := ih cache
        rw [hO] at h
        simp only [if_pos h0, hO]
        simpa [cleanIds] using h
      · by_cases hcc : cache.contains info.diff_id = true
        · rcases hO : layersLoop ms validate breaks cache rest with ⟨er, c, evs, op⟩
          have h := ih cache
          rw [hO] at h
          simp only [if_neg h0, if_pos hcc, hO]
          simpa [cleanIds] using h
        · simp only [if_neg h0, if_neg hcc]
          cases hb : breaks info.diff_id with
          | true =>
            rw [if_pos rfl]
            rcases hO : layersLoop ms validate breaks cache rest with ⟨er, c, evs, op⟩
            have h := ih cache
            rw [hO] at h
            simpa [cleanIds] using h
          | false =>
            rw [if_neg Bool.false_ne_true]
            rcases hO : layersLoop ms validate breaks (cache ++ [info.diff_id]) rest
              with ⟨er, c, evs, op⟩
            have h := ih (cache ++ [info.diff_id])
            rw [hO] at h
            simpa [cleanIds, List.append_assoc] using h

/-- C3: over one archive scan, the clean-layer cache after the run equals
the cache before the run plus exactly the ids of the layers that were
submitted to the engine in this run and whose batch reported no policy
breaks, in order; so a layer with findings is never recorded, and a layer
skipped for zero units or via a cache hit is not re-recorded. -/
theorem c3_clean_cache (tf : TarFileHandle) (validate breaks : String → Bool)
    (configRes cache0 : List String) :
    (docker_scan_archive tf validate breaks configRes cache0).cacheAfter =
      cache0 ++ cleanIds (docker_scan_archive tf validate breaks configRes cache0).events
    ∧ ∀ id : String,
        id ∈ (docker_scan_archive tf validate breaks configRes cache0).cacheAfter ↔
          (id ∈ cache0 ∨
            id ∈ cleanIds (docker_scan_archive tf validate breaks configRes cache0).events) := by
  have key : (docker_scan_archive tf validate breaks configRes cache0).cacheAfter =
      cache0 ++ cleanIds (docker_scan_archive tf validate breaks configRes cache0).events := by
    cases hini : DockerImage.init tf.members with
    | error e => simp [docker_scan_archive, hini, cleanIds]
    | ok img =>
      have h := layersLoop_cache tf.members validate breaks img.layer_infos cache0
      rcases hO : layersLoop tf.members validate breaks cache0 img.layer_infos
        with ⟨er, c, evs, op⟩
      rw [hO] at h
      cases er with
      | none => simpa [docker_scan_archive, hini, hO] using h
      | some e => simpa [docker_scan_archive, hini, hO] using h
  refine ⟨key, fun id => ?_⟩
  rw [key, List.mem_append]

/-- C6 counterexample: an archive with no manifest.json member at all.  The
code raises the builtin KeyError from tarfile.extractfile, not the module's
InvalidDockerArchiveException, contradicting the claim that an absent
manifest raises MalformedArchive. -/
theorem c6_counterexample :
    initLayerInfos [] = .error (.keyError "manifest.json")
    ∧ isInvalidArchiveErr (initLayerInfos []) = false :=
  ⟨by decide, by decide⟩

/-- C6 (amended): a missing Config key raises the module's
InvalidDockerArchiveException, while an absent manifest member raises the
builtin KeyError and an unparsable manifest raises a JSON decode error; in
all three cases construction fails before any layer archive is opened and
before any unit is scanned (empty opened-layer and event traces, cache
untouched). -/
theorem c6_malformed_manifest (tf : TarFileHandle) (validate breaks : String → Bool)
    (configRes cache : List String) :
    (findMember tf.members "manifest.json" = none →
      docker_scan_archive tf validate breaks configRes cache =
        ⟨.error (.keyError "manifest.json"), cache, [], []⟩)
    ∧ (∀ m : TarMember, findMember tf.members "manifest.json" = some m →
        m.isFile = true → m.json? = none →
        docker_scan_archive tf validate breaks configRes cache =
          ⟨.error .jsonDecode, cache, [], []⟩)
    ∧ (∀ (m : TarMember) (kvs : List (String × Json)) (t : List Json),
        findMember tf.members "manifest.json" = some m → m.isFile = true →
        m.json? = some (.arr (.obj kvs :: t)) → lookupKey kvs "Config" = none →
        docker_scan_archive tf validate breaks configRes cache =
          ⟨.error (.invalidDockerArchive "No Config key in manifest."), cache, [], []⟩) := by
  refine ⟨?_, ?_, ?_⟩
  · intro h
    simp [docker_scan_archive, DockerImage.init, load_manifest, extractfileByName, h]
  · intro m hm hf hj
    simp [docker_scan_archive, DockerImage.init, load_manifest, extractfileByName,
      hm, hf, hj]
  · intro m kvs t hm hf hj hcfg
    simp [docker_scan_archive, DockerImage.init, load_manifest, extractfileByName,
      jsonIndexZero, load_image, hm, hf, hj, hcfg]

/-- C6 witness: the three malformations on concrete archives. -/
theorem c6_witness :
    findMember ([] : TarArchive) "manifest.json" = none
    ∧ docker_scan_archive ⟨"/tmp/a.tar", "0xa", []⟩ allPathsOk noBreaks [] [] =
        ⟨.error (.keyError "manifest.json"), [], [], []⟩
    ∧ docker_scan_archive ⟨"/tmp/b.tar", "0xb", [⟨"manifest.json", true, none, []⟩]⟩
        allPathsOk noBreaks [] [] = ⟨.error .jsonDecode, [], [], []⟩
    ∧ docker_scan_archive ⟨"/tmp/c.tar", "0xc",
          [⟨"manifest.json", true, some (.arr [.obj []]), []⟩]⟩ allPathsOk noBreaks [] [] =
        ⟨.error (.invalidDockerArchive "No Config key in manifest."), [], [], []⟩ := by
  refine ⟨rfl, ?_, ?_, ?_⟩
  · exact (c6_malformed_manifest ⟨"/tmp/a.tar", "0xa", []⟩ allPathsOk noBreaks [] []).1 rfl
  · exact (c6_malformed_manifest ⟨"/tmp/b.tar", "0xb", [⟨"manifest.json", true, none, []⟩]⟩
      allPathsOk noBreaks [] []).2.1 ⟨"manifest.json", true, none, []⟩ rfl rfl rfl
  · exact (c6_malformed_manifest ⟨"/tmp/c.tar", "0xc",
      [⟨"manifest.json", true, some (.arr [.obj []]), []⟩]⟩ allPathsOk noBreaks [] []).2.2
      ⟨"manifest.json", true, some (.arr [.obj []]), []⟩ [] [] rfl rfl rfl rfl

/-- C9: the aggregated collection's id is str(archive) — the default repr of
the open TarFile object — and not the filesystem path the archive was
opened from, evaluated on a concrete archive at "/tmp/image.tar". -/
theorem c9_archive_id_bug :
    outcomeId (docker_scan_archive ⟨"/tmp/image.tar", "0x7f81c2", mkConfigArchive [] [] []⟩
        allPathsOk noBreaks [] []) = some "<tarfile.TarFile object at 0x7f81c2>"
    ∧ "<tarfile.TarFile object at 0x7f81c2>" ≠ "/tmp/image.tar" :=
  ⟨by decide, by decide⟩

/-- C4: is_longer_than agrees with comparing the decoded content length
against the probe size, for every reachable scannable state, every decoder
in which a character consumes at least one byte, and every size — including
the boundary where the probe equals the content length, which answers
false.  In particular the byte-size shortcut never disagrees. -/
theorem c4_probe_agrees (decode : List Nat → List Char)
    (hdec : ∀ bs : List Nat, (decode bs).length ≤ bs.length)
    (s : DCScannable) (hs : CacheCoherent decode s) (n : Nat) :
    (isLongerThan decode s n).1 = decide ((scannableContent decode s).1.length > n)
    ∧ ((scannableContent decode s).1.length = n → (isLongerThan decode s n).1 = false) := by
  obtain ⟨bytes, cc⟩ := s
  have main : (isLongerThan decode ⟨bytes, cc⟩ n).1 =
      decide ((scannableContent decode ⟨bytes, cc⟩).1.length > n) := by
    rcases hs with hnone | hfull
    · simp only at hnone
      subst hnone
      simp only [isLongerThan, scannableContent, cacheTruthy]
      rw [if_neg Bool.false_ne_true]
      by_cases hlt : bytes.length < n
      · rw [if_pos hlt]
        have hle := hdec bytes
        have hgt : ¬ ((decode bytes).length > n) := by omega
        simp [hgt]
      · rw [if_neg hlt]
        by_cases hd : (decode bytes).length > n
        · simp [hd]
        · simp [hd]
    · simp only at hfull
      subst hfull
      cases hdb : decode bytes with
      | nil =>
        simp only [isLongerThan, scannableContent, cacheTruthy]
        rw [if_neg Bool.false_ne_true]
        by_cases hlt : bytes.length < n
        · rw [if_pos hlt]
          simp [hdb]
        · rw [if_neg hlt]
          simp [hdb]
      | cons x xs =>
        simp only [isLongerThan, scannableContent, cacheTruthy]
        simp
  refine ⟨main, fun hlen => ?_⟩
  rw [main, hlen]
  simp

/-- C4 witness: a three-byte entry with an empty cache, probed at exactly
its decoded length (the boundary case). -/
theorem c4_witness :
    (∀ bs : List Nat, (decodeOneCharPerByte bs).length ≤ bs.length)
    ∧ CacheCoherent decodeOneCharPerByte ⟨[104, 105, 106], none⟩
    ∧ (isLongerThan decodeOneCharPerByte ⟨[104, 105, 106], none⟩ 3).1 =
        decide ((scannableContent decodeOneCharPerByte ⟨[104, 105, 106], none⟩).1.length > 3) := by
  have hd : ∀ bs : List Nat, (decodeOneCharPerByte bs).length ≤ bs.length := by
    intro bs
    simp [decodeOneCharPerByte]
  exact ⟨hd, Or.inl rfl,
    (c4_probe_agrees decodeOneCharPerByte hd ⟨[104, 105, 106], none⟩ (Or.inl rfl) 3).1⟩

/-- C5 counterexample: docker reports the not-found signature on the first
two save attempts and succeeds on the third; the code performs two
pull-and-retry rounds (three save calls, two pulls) and returns success —
the second failure after the first retry is not fatal and more than one
retry happens. -/
theorem c5_counterexample :
    docker_save_to_tmp [.notFound, .notFound, .ok] [.ok, .ok] = ⟨.success, 3, 2⟩
    ∧ SaveResult.success ≠ SaveResult.unexpectedErr
    ∧ SaveResult.success ≠ SaveResult.usageErr :=
  ⟨by decide, by decide, by decide⟩

/-- C5 (amended): a save failure carrying the not-found signature triggers
one pull followed by a recursive re-invocation of save, with no bound on
the number of rounds: n consecutive not-found failures (with successful
pulls) yield n+1 save calls and n pulls, terminating with whatever the
first non-not-found outcome dictates; a save failure without the signature
or a timeout is immediately fatal, and a failed pull is fatal. -/
theorem c5_retry_unbounded (n : Nat) (t : SaveOutcome) (rest : List SaveOutcome)
    (pulls2 : List PullOutcome) (ht : t ≠ SaveOutcome.notFound) :
    docker_save_to_tmp (List.replicate n .notFound ++ t :: rest)
        (List.replicate n .ok ++ pulls2) = ⟨saveTerminal t, n + 1, n⟩
    ∧ docker_save_to_tmp (.notFound :: rest) (.failed :: pulls2) = ⟨.usageErr, 1, 1⟩
    ∧ docker_save_to_tmp (.otherErr :: rest) pulls2 = ⟨.unexpectedErr, 1, 0⟩ := by
  refine ⟨?_, rfl, rfl⟩
  induction n with
  | zero =>
    cases t with
    | ok => rfl
    | notFound => exact absurd rfl ht
    | otherErr => rfl
    | timedOut => rfl
  | succ k ih =>
    rw [List.replicate_succ, List.replicate_succ, List.cons_append, List.cons_append]
    simp only [docker_save_to_tmp, ih]

/-- C5 witness: two not-found failures then success. -/
theorem c5_witness :
    SaveOutcome.ok ≠ SaveOutcome.notFound
    ∧ docker_save_to_tmp (List.replicate 2 .notFound ++ [SaveOutcome.ok])
        (List.replicate 2 .ok ++ []) = ⟨saveTerminal .ok, 3, 2⟩ :=
  ⟨by decide, (c5_retry_unbounded 2 .ok [] [] (by decide)).1⟩

/-! ## Lemmas: cache paths of distinct engine versions differ -/

theorem layerCachePath_inj (dir v1 v2 : String) (h : v1 ≠ v2) :
    layerCachePath dir v1 ≠ layerCachePath dir v2 := by
  intro he
  refine h ?_
  have hd := congrArg String.data he
  simp only [layerCachePath, String.data_append] at hd
  have h2 := List.append_cancel_right hd
  have h3 := List.append_cancel_left h2
  cases v1 with
  | mk d1 =>
    cases v2 with
    | mk d2 => exact congrArg String.mk h3

/-- C7: recording a content id in the cache artifact of engine version V1
does not change the view of the cache opened under a distinct version V2;
starting from an empty store, an id recorded under V1 is absent under V2. -/
theorem c7_cache_isolated (dir v1 v2 id : String) (st : CacheStore) (h : v1 ≠ v2) :
    cacheContains (cacheAdd st (layerCachePath dir v1) id) (layerCachePath dir v2) id =
      cacheContains st (layerCachePath dir v2) id
    ∧ cacheContains (cacheAdd emptyCacheStore (layerCachePath dir v1) id)
        (layerCachePath dir v2) id = false := by
  have hne : layerCachePath dir v2 ≠ layerCachePath dir v1 :=
    layerCachePath_inj dir v2 v1 (Ne.symm h)
  constructor
  · simp [cacheContains, cacheAdd, if_neg hne]
  · simp [cacheContains, cacheAdd, if_neg hne, emptyCacheStore]

/-- C7 witness: two concrete engine versions. -/
theorem c7_witness :
    ("2.106.0" : String) ≠ "3.0.0"
    ∧ cacheContains (cacheAdd emptyCacheStore (layerCachePath "/cache" "2.106.0") "sha256-abc")
        (layerCachePath "/cache" "3.0.0") "sha256-abc" = false :=
  ⟨by decide, (c7_cache_isolated "/cache" "2.106.0" "3.0.0" "sha256-abc" emptyCacheStore
    (by decide)).2⟩
